import Mathlib

/-!
# Verification of the in-memory rate limiter (`src/lib/rate-limit.ts`)

Shallow embedding of the rate limiter of The-Dev-Pocket. Timestamps and
counters are JavaScript numbers that stay in exact integer range here, so we
model them as `Int`. The module-level `Map` (`rateLimitStore`) is modelled as
a function `String → Option RateLimitEntry`; the module-level `lastCleanup`
variable is carried alongside it in `RateLimitState`.

The per-identifier promise-chain lock (`rateLimitLocks`) serializes calls, so
the observable behaviour in local (INMEM) mode is that of the sequential
state-passing function `checkRateLimit` below; the promise machinery itself
is not embedded.
-/

/-- `RateLimitEntry` from rate-limit.ts: `{ count: number; resetTime: number }`. -/
structure RateLimitEntry where
  count : Int
  resetTime : Int
deriving DecidableEq, Repr

/-- `RateLimitConfig` from rate-limit.ts: `{ maxRequests: number; windowMs: number }`. -/
structure RateLimitConfig where
  maxRequests : Int
  windowMs : Int
deriving DecidableEq, Repr

/-- `RateLimitResult` from rate-limit.ts: `{ success: boolean; remaining: number; reset: number }`. -/
structure RateLimitResult where
  success : Bool
  remaining : Int
  reset : Int
deriving DecidableEq, Repr

/-- The module-level mutable state of rate-limit.ts:
`rateLimitStore : Map<string, RateLimitEntry>` (as a partial map) and
`let lastCleanup = 0`. -/
structure RateLimitState where
  store : String → Option RateLimitEntry
  lastCleanup : Int

/-- The empty store / fresh module state (`lastCleanup = 0`,
empty `rateLimitStore`), as produced by module load or `__testResetRateLimit`. -/
def initialState : RateLimitState :=
  { store := fun _ => none, lastCleanup := 0 }

/-- `rateLimitStore.set(key, entry)`: update of the partial map at one key. -/
def storeSet (store : String → Option RateLimitEntry) (key : String)
    (entry : RateLimitEntry) : String → Option RateLimitEntry :=
  fun k => if k = key then some entry else store k

/-- The body of the periodic lazy-cleanup loop (rate-limit.ts lines 79-81):
`for ([key, entry] of rateLimitStore.entries()) if (now > entry.resetTime) delete key`.
Deleting entries while iterating a JS `Map` is safe and yields the pointwise
filter below. -/
def cleanupStore (now : Int) (store : String → Option RateLimitEntry) :
    String → Option RateLimitEntry :=
  fun k =>
    match store k with
    | none => none
    | some entry => if now > entry.resetTime then none else some entry

/-- The periodic lazy-cleanup step at the top of `checkRateLimit`
(rate-limit.ts lines 77-82): if more than 5 minutes have elapsed since
`lastCleanup`, set `lastCleanup = now` and sweep the store. -/
def afterCleanup (now : Int) (s : RateLimitState) : RateLimitState :=
  if now - s.lastCleanup > 5 * 60 * 1000 then
    { store := cleanupStore now s.store, lastCleanup := now }
  else s

/-- `checkRateLimit` in local (INMEM) mode, rate-limit.ts lines 74-117, with
`now = Date.now()` passed explicitly and the module state threaded through.
Returns the `RateLimitResult` together with the post-call state. -/
def checkRateLimit (identifier : String) (config : RateLimitConfig) (now : Int)
    (s : RateLimitState) : RateLimitResult × RateLimitState :=
  -- Periodic lazy cleanup (run every 5 minutes)
  let s1 : RateLimitState := afterCleanup now s
  match s1.store identifier with
  | none =>
      -- No existing entry
      (⟨true, config.maxRequests - 1, now + config.windowMs⟩,
       { s1 with store := storeSet s1.store identifier ⟨1, now + config.windowMs⟩ })
  | some entry =>
      if now > entry.resetTime then
        -- Expired entry
        (⟨true, config.maxRequests - 1, now + config.windowMs⟩,
         { s1 with store := storeSet s1.store identifier ⟨1, now + config.windowMs⟩ })
      else if entry.count ≥ config.maxRequests then
        -- Limit exceeded
        (⟨false, 0, entry.resetTime⟩, s1)
      else
        -- Increment counter
        (⟨true, config.maxRequests - (entry.count + 1), entry.resetTime⟩,
         { s1 with store := storeSet s1.store identifier ⟨entry.count + 1, entry.resetTime⟩ })

/-- Run a sequence of `checkRateLimit` calls for one identifier at the given
times, collecting the results. -/
def runCalls (identifier : String) (config : RateLimitConfig) :
    List Int → RateLimitState → List RateLimitResult × RateLimitState
  | [], s => ([], s)
  | t :: ts, s =>
      let r := checkRateLimit identifier config t s
      let rest := runCalls identifier config ts r.2
      (r.1 :: rest.1, rest.2)

/-- Run a sequence of `checkRateLimit` calls tagged with their identifier
(an interleaving of calls for several keys), collecting each call's
identifier together with its result. -/
def runKeyed (config : RateLimitConfig) :
    List (String × Int) → RateLimitState → List (String × RateLimitResult) × RateLimitState
  | [], s => ([], s)
  | (k, t) :: cs, s =>
      let r := checkRateLimit k config t s
      let rest := runKeyed config cs r.2
      ((k, r.1) :: rest.1, rest.2)

/-! ## Backend selector (rate-limit.ts lines 43-61)

The UPSTASH branch delegates to `upstashLimit` (a dynamic import of
`./rate-limit-upstash`, not part of the limiter core); its outcome — a result,
or a thrown error which also covers a failed import — is passed in as an
`Except` value. `process.env` is modelled by the two variables read. -/

/-- The environment variables read by `checkRateLimit`:
`RATE_LIMIT_MODE` and `NODE_ENV`. -/
structure Env where
  rateLimitMode : Option String
  nodeEnv : Option String

/-- Model of JavaScript `s.toUpperCase()` (ASCII case mapping suffices for
the mode strings compared here). -/
def jsToUpper (s : String) : String :=
  String.mk (s.data.map Char.toUpper)

/-- The full `checkRateLimit` entry point including backend selection
(rate-limit.ts lines 43-61 wrapped around the local path):
`mode = (process.env.RATE_LIMIT_MODE || 'INMEM').toUpperCase()`; in UPSTASH
mode a failing backend throws in production (`.error`) and falls back to the
local in-memory limiter otherwise. -/
def checkRateLimitFull (env : Env) (upstashOutcome : Except String RateLimitResult)
    (identifier : String) (config : RateLimitConfig) (now : Int)
    (s : RateLimitState) : Except String (RateLimitResult × RateLimitState) :=
  let mode := jsToUpper (env.rateLimitMode.getD "INMEM")
  if mode = "UPSTASH" then
    match upstashOutcome with
    | .ok r => .ok (r, s)
    | .error err =>
        if env.nodeEnv = some "production" then .error err
        else .ok (checkRateLimit identifier config now s)
  else .ok (checkRateLimit identifier config now s)

/-! ## Identity extractor (rate-limit.ts lines 144-161) -/

/-- JavaScript truthiness of `headers.get(name)` (`null` and `""` are falsy),
as used by `if (cfIp)`, `if (realIp)`, `if (forwarded)`. -/
def jsTruthy : Option String → Bool
  | none => false
  | some str => str ≠ ""

/-- Model of JavaScript `s.split(',')`, by structural recursion on the
character list (so that concrete instances compute by `decide`). -/
def jsSplitCommaAux : List Char → List Char → List String
  | [], acc => [String.mk acc.reverse]
  | c :: cs, acc =>
      if c = ',' then String.mk acc.reverse :: jsSplitCommaAux cs []
      else jsSplitCommaAux cs (c :: acc)

/-- JavaScript `s.split(',')`: e.g. `"" ↦ [""]`, `",a," ↦ ["", "a", ""]`. -/
def jsSplitComma (s : String) : List String :=
  jsSplitCommaAux s.data []

/-- Model of JavaScript `s.trim()`: strip leading and trailing whitespace. -/
def jsTrim (s : String) : String :=
  String.mk (((s.data.dropWhile Char.isWhitespace).reverse.dropWhile
    Char.isWhitespace).reverse)

/-- `getClientIP` from rate-limit.ts, with the request's header map modelled
as a function from header name to `headers.get` result. Mirrors the source:
`cf-connecting-ip` if truthy, else `x-real-ip` if truthy, else the first
element of `forwarded.split(',').map(trim).filter(Boolean)` when the
forwarded header is truthy and that list is non-empty, else `"127.0.0.1"`. -/
def getClientIP (headers : String → Option String) : String :=
  let cfIp := headers "cf-connecting-ip"
  if jsTruthy cfIp then cfIp.getD ""
  else
    let realIp := headers "x-real-ip"
    if jsTruthy realIp then realIp.getD ""
    else
      let forwarded := headers "x-forwarded-for"
      if jsTruthy forwarded then
        let parts := ((jsSplitComma (forwarded.getD "")).map jsTrim).filter
          (fun p => p ≠ "")
        match parts with
        | p :: _ => p
        | [] => "127.0.0.1"
      else "127.0.0.1"

/-- The identity-extractor contract exactly as the spec sentence words it
(trust-ordered precedence on *presence* of headers, "the first entry of the
comma-separated x-forwarded-for header"). Used to compare the spec's wording
against `getClientIP`; they differ (truthiness vs. presence, trimming,
skipping of empty entries). -/
def getClientIPSpec (headers : String → Option String) : String :=
  match headers "cf-connecting-ip" with
  | some s => s
  | none =>
      match headers "x-real-ip" with
      | some s => s
      | none =>
          match headers "x-forwarded-for" with
          | some f => (jsSplitComma f).headD "127.0.0.1"
          | none => "127.0.0.1"

/-- A literal header map for concrete test requests: an association list of
present headers. -/
def headersOf (l : List (String × String)) : String → Option String :=
  fun name => (l.find? (fun p => p.1 = name)).map (fun p => p.2)

/-! ## Auxiliary notions used by the verification -/

/-- A module state holding a single window entry (for concrete tests). -/
def stateWith (key : String) (e : RateLimitEntry) (lc : Int) : RateLimitState :=
  { store := fun k => if k = key then some e else none, lastCleanup := lc }

/-- A (possibly absent) window is dead at time `t`: absent, or past its
`resetTime`. A dead window and no window are observationally equal for
`checkRateLimit`, which treats both as "start a fresh window". -/
def deadAt (t : Int) : Option RateLimitEntry → Prop
  | none => True
  | some e => t > e.resetTime

/-- Observational equivalence at time `t` of the (possibly absent) windows of
one key: equal, or both dead. -/
def entryEquiv (t : Int) (a b : Option RateLimitEntry) : Prop :=
  a = b ∨ (deadAt t a ∧ deadAt t b)

/-- The action of one `checkRateLimit` call on its own key, abstracted to the
key's (possibly absent, already swept) window: the result returned and the
window stored afterwards. -/
def stepEntry (config : RateLimitConfig) (t : Int) :
    Option RateLimitEntry → RateLimitResult × Option RateLimitEntry
  | none =>
      (⟨true, config.maxRequests - 1, t + config.windowMs⟩,
       some ⟨1, t + config.windowMs⟩)
  | some e =>
      if t > e.resetTime then
        (⟨true, config.maxRequests - 1, t + config.windowMs⟩,
         some ⟨1, t + config.windowMs⟩)
      else if e.count ≥ config.maxRequests then
        (⟨false, 0, e.resetTime⟩, some e)
      else
        (⟨true, config.maxRequests - (e.count + 1), e.resetTime⟩,
         some ⟨e.count + 1, e.resetTime⟩)

-- Sanity checks on concrete runs (spec §8 scenario: maxRequests = 3).
example :
    (runCalls "192.168.1.100" ⟨3, 3600000⟩ [10, 20, 30, 40] initialState).1 =
      [⟨true, 2, 3600010⟩, ⟨true, 1, 3600010⟩, ⟨true, 0, 3600010⟩,
       ⟨false, 0, 3600010⟩] := by decide

example :
    (checkRateLimit "k" ⟨2, 100⟩ 50 initialState).2.store "k" = some ⟨1, 150⟩ := by decide

example :
    getClientIP (headersOf [("x-forwarded-for", " 1.2.3.4, 5.6.7.8")]) = "1.2.3.4" := by decide

/-! ## Characterization lemmas for `checkRateLimit` -/

lemma storeSet_self (store : String → Option RateLimitEntry) (key : String)
    (entry : RateLimitEntry) : storeSet store key entry key = some entry := by
  simp [storeSet]

lemma storeSet_other (store : String → Option RateLimitEntry) (key : String)
    (entry : RateLimitEntry) (k : String) (hk : k ≠ key) :
    storeSet store key entry k = store k := by
  simp [storeSet, hk]

lemma afterCleanup_store_none (now : Int) (s : RateLimitState) (k : String)
    (h : s.store k = none) : (afterCleanup now s).store k = none := by
  unfold afterCleanup
  split <;> simp [cleanupStore, h]

lemma afterCleanup_store_live (now : Int) (s : RateLimitState) (k : String)
    (e : RateLimitEntry) (h : s.store k = some e) (hl : ¬ now > e.resetTime) :
    (afterCleanup now s).store k = some e := by
  unfold afterCleanup
  split <;> simp [cleanupStore, h, hl]

lemma afterCleanup_store_of_swept (now : Int) (s : RateLimitState) (k : String)
    (h : now - s.lastCleanup > 5 * 60 * 1000) :
    (afterCleanup now s).store k = cleanupStore now s.store k := by
  unfold afterCleanup
  rw [if_pos h]

lemma afterCleanup_store_of_notSwept (now : Int) (s : RateLimitState) (k : String)
    (h : ¬ now - s.lastCleanup > 5 * 60 * 1000) :
    (afterCleanup now s).store k = s.store k := by
  unfold afterCleanup
  rw [if_neg h]

/-- Fresh-window branch: no (surviving) entry for the identifier. -/
lemma checkRateLimit_fresh_of_none (identifier : String) (config : RateLimitConfig)
    (now : Int) (s : RateLimitState)
    (h : (afterCleanup now s).store identifier = none) :
    checkRateLimit identifier config now s =
      (⟨true, config.maxRequests - 1, now + config.windowMs⟩,
       { afterCleanup now s with
          store := storeSet (afterCleanup now s).store identifier
            ⟨1, now + config.windowMs⟩ }) := by
  unfold checkRateLimit
  simp only [h]

/-- Fresh-window branch: the surviving entry for the identifier is expired. -/
lemma checkRateLimit_fresh_of_expired (identifier : String) (config : RateLimitConfig)
    (now : Int) (s : RateLimitState) (e : RateLimitEntry)
    (h : (afterCleanup now s).store identifier = some e) (he : now > e.resetTime) :
    checkRateLimit identifier config now s =
      (⟨true, config.maxRequests - 1, now + config.windowMs⟩,
       { afterCleanup now s with
          store := storeSet (afterCleanup now s).store identifier
            ⟨1, now + config.windowMs⟩ }) := by
  unfold checkRateLimit
  simp only [h, if_pos he]

/-- Rejection branch: live entry whose count has reached the quota. -/
lemma checkRateLimit_reject (identifier : String) (config : RateLimitConfig)
    (now : Int) (s : RateLimitState) (e : RateLimitEntry)
    (h : (afterCleanup now s).store identifier = some e) (he : ¬ now > e.resetTime)
    (hc : e.count ≥ config.maxRequests) :
    checkRateLimit identifier config now s =
      (⟨false, 0, e.resetTime⟩, afterCleanup now s) := by
  unfold checkRateLimit
  simp only [h, if_neg he, if_pos hc]

/-- Increment branch: live entry strictly under the quota. -/
lemma checkRateLimit_increment (identifier : String) (config : RateLimitConfig)
    (now : Int) (s : RateLimitState) (e : RateLimitEntry)
    (h : (afterCleanup now s).store identifier = some e) (he : ¬ now > e.resetTime)
    (hc : ¬ e.count ≥ config.maxRequests) :
    checkRateLimit identifier config now s =
      (⟨true, config.maxRequests - (e.count + 1), e.resetTime⟩,
       { afterCleanup now s with
          store := storeSet (afterCleanup now s).store identifier
            ⟨e.count + 1, e.resetTime⟩ }) := by
  unfold checkRateLimit
  simp only [h, if_neg he, if_neg hc]

/-- A call never touches the store at any key other than its own identifier,
except through the cleanup sweep. -/
lemma checkRateLimit_store_other (identifier : String) (config : RateLimitConfig)
    (now : Int) (s : RateLimitState) (k : String) (hk : k ≠ identifier) :
    (checkRateLimit identifier config now s).2.store k =
      (afterCleanup now s).store k := by
  unfold checkRateLimit
  rcases h : (afterCleanup now s).store identifier with _ | e
  · simp only [h]
    simp [storeSet_other _ _ _ _ hk]
  · simp only [h]
    split_ifs <;> simp [storeSet_other _ _ _ _ hk]

/-- `lastCleanup` after a call is whatever the cleanup step set it to. -/
lemma checkRateLimit_lastCleanup (identifier : String) (config : RateLimitConfig)
    (now : Int) (s : RateLimitState) :
    (checkRateLimit identifier config now s).2.lastCleanup =
      (afterCleanup now s).lastCleanup := by
  unfold checkRateLimit
  rcases h : (afterCleanup now s).store identifier with _ | e
  · simp only [h]
  · simp only [h]
    split_ifs <;> simp

/-! ## Claim theorems -/

/-- C2: a call in local mode with no stored entry for the key admits the
request, returns `remaining = maxRequests - 1` and `reset = now + windowMs`,
and stores a window `{count: 1, resetTime: now + windowMs}` for the key. -/
theorem rateLimit_first_call_fresh (key : String) (config : RateLimitConfig)
    (now : Int) (s : RateLimitState) (h : s.store key = none) :
    (checkRateLimit key config now s).1 =
      ⟨true, config.maxRequests - 1, now + config.windowMs⟩ ∧
    (checkRateLimit key config now s).2.store key =
      some ⟨1, now + config.windowMs⟩ := by
  have h1 := afterCleanup_store_none now s key h
  rw [checkRateLimit_fresh_of_none key config now s h1]
  exact ⟨rfl, storeSet_self _ _ _⟩

/-- Witness for C2 at a concrete input. -/
theorem rateLimit_first_call_fresh_witness :
    (checkRateLimit "k" ⟨3, 100⟩ 50 initialState).1 = ⟨true, 2, 150⟩ ∧
    (checkRateLimit "k" ⟨3, 100⟩ 50 initialState).2.store "k" = some ⟨1, 150⟩ :=
  rateLimit_first_call_fresh "k" ⟨3, 100⟩ 50 initialState rfl

/-- C3: a call in local mode hitting a live window (`now < resetAt`) whose
count has reached the quota is rejected with `remaining = 0` and
`reset` equal to the stored `resetTime`, and the stored entry for the key is
left completely unchanged. -/
theorem rateLimit_reject_no_mutation (key : String) (config : RateLimitConfig)
    (now : Int) (s : RateLimitState) (e : RateLimitEntry)
    (h : s.store key = some e) (hl : now < e.resetTime)
    (hc : e.count ≥ config.maxRequests) :
    (checkRateLimit key config now s).1 = ⟨false, 0, e.resetTime⟩ ∧
    (checkRateLimit key config now s).2.store key = some e := by
  have hnot : ¬ now > e.resetTime := by omega
  have h1 := afterCleanup_store_live now s key e h hnot
  rw [checkRateLimit_reject key config now s e h1 hnot hc]
  exact ⟨rfl, h1⟩

/-- Witness for C3 at a concrete input. -/
theorem rateLimit_reject_no_mutation_witness :
    (checkRateLimit "k" ⟨2, 100⟩ 50 (stateWith "k" ⟨2, 80⟩ 50)).1 =
      ⟨false, 0, 80⟩ ∧
    (checkRateLimit "k" ⟨2, 100⟩ 50 (stateWith "k" ⟨2, 80⟩ 50)).2.store "k" =
      some ⟨2, 80⟩ :=
  rateLimit_reject_no_mutation "k" ⟨2, 100⟩ 50 (stateWith "k" ⟨2, 80⟩ 50)
    ⟨2, 80⟩ rfl (by decide) (by decide)

/-- C4 counterexample: at the exact boundary `now = resetAt` the code does
NOT replace the window. With a stored window `{count: 1, resetTime: 100}`,
`maxRequests = 2` and a call at `now = 100`, the old count is carried over
(the entry becomes `{count: 2, resetTime: 100}`) and the result is
`remaining = 0` with the old `reset`, not a fresh window's
`remaining = maxRequests - 1 = 1` with `reset = now + windowMs = 150`. -/
theorem rateLimit_boundary_counterexample :
    (checkRateLimit "k" ⟨2, 50⟩ 100 (stateWith "k" ⟨1, 100⟩ 100)).1 =
      ⟨true, 0, 100⟩ ∧
    (checkRateLimit "k" ⟨2, 50⟩ 100 (stateWith "k" ⟨1, 100⟩ 100)).2.store "k" =
      some ⟨2, 100⟩ ∧
    (checkRateLimit "k" ⟨2, 50⟩ 100 (stateWith "k" ⟨1, 100⟩ 100)).1 ≠
      ⟨true, 1, 150⟩ := by decide

/-- C4 amended: an existing window is replaced by a fresh
`{count: 1, resetTime: now + windowMs}` window exactly when `resetAt < now`
(strict); at the boundary `now = resetAt` the stored window is reused — the
call increments the carried-over count when under the quota and rejects when
the quota is reached — never replaced. -/
theorem rateLimit_expiry_strict (key : String) (config : RateLimitConfig)
    (now : Int) (s : RateLimitState) (e : RateLimitEntry)
    (h : s.store key = some e) :
    (e.resetTime < now →
        (checkRateLimit key config now s).1 =
          ⟨true, config.maxRequests - 1, now + config.windowMs⟩ ∧
        (checkRateLimit key config now s).2.store key =
          some ⟨1, now + config.windowMs⟩) ∧
    (now = e.resetTime → e.count < config.maxRequests →
        (checkRateLimit key config now s).1 =
          ⟨true, config.maxRequests - (e.count + 1), e.resetTime⟩ ∧
        (checkRateLimit key config now s).2.store key =
          some ⟨e.count + 1, e.resetTime⟩) ∧
    (now = e.resetTime → e.count ≥ config.maxRequests →
        (checkRateLimit key config now s).1 = ⟨false, 0, e.resetTime⟩ ∧
        (checkRateLimit key config now s).2.store key = some e) := by
  refine ⟨fun hexp => ?_, fun hb hunder => ?_, fun hb hfull => ?_⟩
  · have he : now > e.resetTime := hexp
    by_cases hsw : now - s.lastCleanup > 5 * 60 * 1000
    · have h1 : (afterCleanup now s).store key = none := by
        rw [afterCleanup_store_of_swept now s key hsw]
        simp [cleanupStore, h, he]
      rw [checkRateLimit_fresh_of_none key config now s h1]
      exact ⟨rfl, storeSet_self _ _ _⟩
    · have h1 : (afterCleanup now s).store key = some e := by
        rw [afterCleanup_store_of_notSwept now s key hsw]
        exact h
      rw [checkRateLimit_fresh_of_expired key config now s e h1 he]
      exact ⟨rfl, storeSet_self _ _ _⟩
  · have hlive : ¬ now > e.resetTime := by omega
    have h1 := afterCleanup_store_live now s key e h hlive
    rw [checkRateLimit_increment key config now s e h1 hlive (by omega)]
    exact ⟨rfl, storeSet_self _ _ _⟩
  · have hlive : ¬ now > e.resetTime := by omega
    have h1 := afterCleanup_store_live now s key e h hlive
    rw [checkRateLimit_reject key config now s e h1 hlive hfull]
    exact ⟨rfl, h1⟩

/-- Witness for the amended C4 at concrete inputs (one strictly-expired
window, one boundary reuse). -/
theorem rateLimit_expiry_strict_witness :
    ((checkRateLimit "k" ⟨2, 50⟩ 101 (stateWith "k" ⟨1, 100⟩ 101)).1 =
        ⟨true, 1, 151⟩ ∧
      (checkRateLimit "k" ⟨2, 50⟩ 101 (stateWith "k" ⟨1, 100⟩ 101)).2.store "k" =
        some ⟨1, 151⟩) ∧
    ((checkRateLimit "k" ⟨2, 50⟩ 100 (stateWith "k" ⟨1, 100⟩ 100)).1 =
        ⟨true, 0, 100⟩ ∧
      (checkRateLimit "k" ⟨2, 50⟩ 100 (stateWith "k" ⟨1, 100⟩ 100)).2.store "k" =
        some ⟨2, 100⟩) :=
  ⟨(rateLimit_expiry_strict "k" ⟨2, 50⟩ 101 (stateWith "k" ⟨1, 100⟩ 101)
      ⟨1, 100⟩ rfl).1 (by decide),
   (rateLimit_expiry_strict "k" ⟨2, 50⟩ 100 (stateWith "k" ⟨1, 100⟩ 100)
      ⟨1, 100⟩ rfl).2.1 rfl (by decide)⟩

lemma afterCleanup_lastCleanup_of_swept (now : Int) (s : RateLimitState)
    (h : now - s.lastCleanup > 5 * 60 * 1000) :
    (afterCleanup now s).lastCleanup = now := by
  unfold afterCleanup
  rw [if_pos h]

lemma afterCleanup_lastCleanup_of_notSwept (now : Int) (s : RateLimitState)
    (h : ¬ now - s.lastCleanup > 5 * 60 * 1000) :
    (afterCleanup now s).lastCleanup = s.lastCleanup := by
  unfold afterCleanup
  rw [if_neg h]

/-- C7 counterexample: the sweep uses strict comparison `now > resetTime`,
so an entry whose `resetAt` equals `now` is NOT deleted. Here more than
5 minutes have elapsed since the last sweep, the call for key `"b"` sweeps,
and the entry for `"a"` with `resetAt = now = 1000000` survives, although the
claim says every entry with `resetAt ≤ now` is removed. -/
theorem rateLimit_sweep_boundary_counterexample :
    (1000000 : Int) - (stateWith "a" ⟨1, 1000000⟩ 0).lastCleanup > 5 * 60 * 1000 ∧
    (checkRateLimit "b" ⟨5, 1000⟩ 1000000 (stateWith "a" ⟨1, 1000000⟩ 0)).2.store "a" =
      some ⟨1, 1000000⟩ := by decide

/-- C7 amended: a call in local mode with more than 5 minutes since the last
sweep performs one full sweep deleting exactly the entries with
`resetAt < now` (strict — an entry with `resetAt = now` is kept, and no live
entry is removed), records `lastCleanup = now`, and any call within the
following 5 minutes does not sweep (it leaves every other key's entry and
`lastCleanup` unchanged). -/
theorem rateLimit_sweep (identifier : String) (config : RateLimitConfig)
    (now : Int) (s : RateLimitState)
    (h : now - s.lastCleanup > 5 * 60 * 1000) :
    (∀ k, k ≠ identifier → ∀ e, s.store k = some e →
        ((e.resetTime < now →
            (checkRateLimit identifier config now s).2.store k = none) ∧
         (now ≤ e.resetTime →
            (checkRateLimit identifier config now s).2.store k = some e))) ∧
    (checkRateLimit identifier config now s).2.lastCleanup = now ∧
    (∀ id2 cfg2 t2, t2 - now ≤ 5 * 60 * 1000 →
        ((checkRateLimit id2 cfg2 t2
            (checkRateLimit identifier config now s).2).2.lastCleanup = now ∧
         ∀ k, k ≠ id2 →
           (checkRateLimit id2 cfg2 t2
              (checkRateLimit identifier config now s).2).2.store k =
             (checkRateLimit identifier config now s).2.store k)) := by
  have hlast : (checkRateLimit identifier config now s).2.lastCleanup = now := by
    rw [checkRateLimit_lastCleanup, afterCleanup_lastCleanup_of_swept now s h]
  refine ⟨fun k hk e he => ?_, hlast, fun id2 cfg2 t2 ht2 => ?_⟩
  · rw [checkRateLimit_store_other identifier config now s k hk,
      afterCleanup_store_of_swept now s k h]
    constructor
    · intro hexp
      simp [cleanupStore, he, hexp]
    · intro hliv
      have : ¬ now > e.resetTime := by omega
      simp [cleanupStore, he, this]
  · have hnsw : ¬ t2 - (checkRateLimit identifier config now s).2.lastCleanup >
        5 * 60 * 1000 := by
      rw [hlast]; omega
    refine ⟨?_, fun k hk => ?_⟩
    · rw [checkRateLimit_lastCleanup,
        afterCleanup_lastCleanup_of_notSwept _ _ hnsw, hlast]
    · rw [checkRateLimit_store_other id2 cfg2 t2 _ k hk,
        afterCleanup_store_of_notSwept _ _ k hnsw]

/-- Witness for the amended C7 at a concrete input: the sweeping call deletes
the strictly-expired entry of another key and records the sweep time. -/
theorem rateLimit_sweep_witness :
    (checkRateLimit "b" ⟨5, 1000⟩ 1000000 (stateWith "a" ⟨1, 999999⟩ 0)).2.store "a" =
      none ∧
    (checkRateLimit "b" ⟨5, 1000⟩ 1000000 (stateWith "a" ⟨1, 999999⟩ 0)).2.lastCleanup =
      1000000 :=
  ⟨((rateLimit_sweep "b" ⟨5, 1000⟩ 1000000 (stateWith "a" ⟨1, 999999⟩ 0)
      (by decide)).1 "a" (by decide) ⟨1, 999999⟩ rfl).1 (by decide),
   (rateLimit_sweep "b" ⟨5, 1000⟩ 1000000 (stateWith "a" ⟨1, 999999⟩ 0)
      (by decide)).2.1⟩

/-- Loop invariant for sequences of calls within one live window: starting
from a stored window `{count: c, resetTime: r}` with the whole quota not yet
used up, every further call inside the window is admitted, `remaining`
decreases by one per call, and the count advances to `c + length`. -/
lemma runCalls_loop (key : String) (config : RateLimitConfig) (r : Int)
    (ts : List Int) :
    ∀ (c : Int) (s : RateLimitState),
      (∀ t ∈ ts, t ≤ r) →
      s.store key = some ⟨c, r⟩ →
      c + (ts.length : Int) ≤ config.maxRequests →
      (∀ i : Nat, i < ts.length →
          (runCalls key config ts s).1[i]? =
            some ⟨true, config.maxRequests - (c + (i : Int) + 1), r⟩) ∧
      (runCalls key config ts s).2.store key =
        some ⟨c + (ts.length : Int), r⟩ := by
  induction ts with
  | nil =>
      intro c s hin hs hN
      simp [runCalls, hs]
  | cons t ts ih =>
      intro c s hin hs hN
      simp only [List.length_cons] at hN
      push_cast at hN
      have hle : t ≤ r := hin t (by simp)
      have hlive : ¬ t > r := by omega
      have h1 : (afterCleanup t s).store key = some ⟨c, r⟩ :=
        afterCleanup_store_live t s key ⟨c, r⟩ hs hlive
      have hN' : c + (ts.length : Int) + 1 ≤ config.maxRequests := by
        omega
      have hunder : ¬ (⟨c, r⟩ : RateLimitEntry).count ≥ config.maxRequests := by
        show ¬ c ≥ config.maxRequests
        omega
      have heq := checkRateLimit_increment key config t s ⟨c, r⟩ h1 hlive hunder
      have hs' : (checkRateLimit key config t s).2.store key = some ⟨c + 1, r⟩ := by
        rw [heq]
        exact storeSet_self _ _ _
      obtain ⟨ihres, ihstore⟩ := ih (c + 1) (checkRateLimit key config t s).2
        (fun t' ht' => hin t' (by simp [ht'])) hs' (by omega)
      constructor
      · intro i hi
        cases i with
        | zero =>
            simp [runCalls, heq]
        | succ i =>
            simp only [runCalls]
            rw [List.getElem?_cons_succ]
            rw [ihres i (by simpa using hi)]
            push_cast
            ring_nf
      · simp only [runCalls]
        rw [ihstore]
        simp only [List.length_cons]
        push_cast
        ring_nf

/-- C1: for a valid config and a key with no stored window, a sequence of
`N ≤ maxRequests` calls all within one window is fully admitted, with
`remaining` strictly decreasing by 1 per call from `maxRequests - 1` down to
`maxRequests - N`; and when `N = maxRequests`, the `(N+1)`-th call in the
same window is rejected with `remaining = 0` and the window's unchanged
`reset` (the two parts of the claim are consistent only when the rejected
call is the one after the quota is exhausted, i.e. `N = maxRequests`). -/
theorem rateLimit_window_sequence (key : String) (config : RateLimitConfig)
    (hmax : 1 ≤ config.maxRequests) (hwin : 1 ≤ config.windowMs)
    (s0 : RateLimitState) (h0 : s0.store key = none)
    (t0 : Int) (ts : List Int)
    (hin : ∀ t ∈ ts, t ≤ t0 + config.windowMs)
    (hN : (ts.length : Int) + 1 ≤ config.maxRequests) :
    (∀ i : Nat, i < ts.length + 1 →
        (runCalls key config (t0 :: ts) s0).1[i]? =
          some ⟨true, config.maxRequests - ((i : Int) + 1),
            t0 + config.windowMs⟩) ∧
    ((ts.length : Int) + 1 = config.maxRequests →
      ∀ t', t' ≤ t0 + config.windowMs →
        (checkRateLimit key config t'
            (runCalls key config (t0 :: ts) s0).2).1 =
          ⟨false, 0, t0 + config.windowMs⟩) := by
  have h1 : (afterCleanup t0 s0).store key = none :=
    afterCleanup_store_none t0 s0 key h0
  have heq := checkRateLimit_fresh_of_none key config t0 s0 h1
  have hs1 : (checkRateLimit key config t0 s0).2.store key =
      some ⟨1, t0 + config.windowMs⟩ := by
    rw [heq]
    exact storeSet_self _ _ _
  obtain ⟨lres, lstore⟩ := runCalls_loop key config (t0 + config.windowMs) ts 1
    (checkRateLimit key config t0 s0).2 hin hs1 (by omega)
  constructor
  · intro i hi
    cases i with
    | zero =>
        simp [runCalls, heq]
    | succ i =>
        simp only [runCalls]
        rw [List.getElem?_cons_succ]
        rw [lres i (by omega)]
        push_cast
        ring_nf
  · intro hfull t' ht'
    have hstore : (runCalls key config (t0 :: ts) s0).2.store key =
        some ⟨1 + (ts.length : Int), t0 + config.windowMs⟩ := by
      simp only [runCalls]
      rw [lstore]
    have hlive : ¬ t' >
        (⟨1 + (ts.length : Int), t0 + config.windowMs⟩ : RateLimitEntry).resetTime := by
      show ¬ t' > t0 + config.windowMs
      omega
    have h2 := afterCleanup_store_live t' _ key _ hstore hlive
    rw [checkRateLimit_reject key config t' _ _ h2 hlive
      (by show (1 : Int) + (ts.length : Int) ≥ config.maxRequests; omega)]

/-- Witness for C1 at the spec's concrete scenario (`maxRequests = 3`,
three calls then a rejected fourth, all in one window). -/
theorem rateLimit_window_sequence_witness :
    (runCalls "192.168.1.100" ⟨3, 3600000⟩ [10, 20, 30] initialState).1[1]? =
      some ⟨true, 1, 3600010⟩ ∧
    (checkRateLimit "192.168.1.100" ⟨3, 3600000⟩ 40
        (runCalls "192.168.1.100" ⟨3, 3600000⟩ [10, 20, 30] initialState).2).1 =
      ⟨false, 0, 3600010⟩ := by
  have h := rateLimit_window_sequence "192.168.1.100" ⟨3, 3600000⟩ (by decide)
    (by decide) initialState rfl 10 [20, 30] (by decide) (by decide)
  constructor
  · have h1 := h.1 1 (by decide)
    norm_num at h1 ⊢
    exact h1
  · have h2 := h.2 (by decide) 40 (by decide)
    norm_num at h2 ⊢
    exact h2

lemma deadAt_mono {t t' : Int} (h : t ≤ t') {a : Option RateLimitEntry}
    (ha : deadAt t a) : deadAt t' a := by
  cases a with
  | none => trivial
  | some e => exact lt_of_lt_of_le ha h

lemma entryEquiv_mono {t t' : Int} (h : t ≤ t') {a b : Option RateLimitEntry}
    (hab : entryEquiv t a b) : entryEquiv t' a b := by
  rcases hab with rfl | ⟨ha, hb⟩
  · exact Or.inl rfl
  · exact Or.inr ⟨deadAt_mono h ha, deadAt_mono h hb⟩

lemma entryEquiv_symm {t : Int} {a b : Option RateLimitEntry}
    (h : entryEquiv t a b) : entryEquiv t b a := by
  rcases h with rfl | ⟨ha, hb⟩
  · exact Or.inl rfl
  · exact Or.inr ⟨hb, ha⟩

lemma entryEquiv_trans {t : Int} {a b c : Option RateLimitEntry}
    (h1 : entryEquiv t a b) (h2 : entryEquiv t b c) : entryEquiv t a c := by
  rcases h1 with rfl | ⟨ha, hb⟩
  · exact h2
  · rcases h2 with rfl | ⟨hb2, hc⟩
    · exact Or.inr ⟨ha, hb⟩
    · exact Or.inr ⟨ha, hc⟩

/-- The cleanup sweep changes a key's window only by deleting it when dead,
so the swept window is observationally equivalent to the original. -/
lemma afterCleanup_entryEquiv (t : Int) (s : RateLimitState) (k : String) :
    entryEquiv t ((afterCleanup t s).store k) (s.store k) := by
  by_cases hsw : t - s.lastCleanup > 5 * 60 * 1000
  · rw [afterCleanup_store_of_swept t s k hsw]
    rcases h : s.store k with _ | e
    · exact Or.inl (by simp [cleanupStore, h])
    · by_cases he : t > e.resetTime
      · refine Or.inr ⟨?_, he⟩
        simp [cleanupStore, h, he, deadAt]
      · exact Or.inl (by simp [cleanupStore, h, he])
  · rw [afterCleanup_store_of_notSwept t s k hsw]
    exact Or.inl rfl

lemma stepEntry_of_dead (config : RateLimitConfig) (t : Int)
    {a : Option RateLimitEntry} (h : deadAt t a) :
    stepEntry config t a =
      (⟨true, config.maxRequests - 1, t + config.windowMs⟩,
       some ⟨1, t + config.windowMs⟩) := by
  cases a with
  | none => rfl
  | some e =>
      have he : t > e.resetTime := h
      simp [stepEntry, he]

lemma stepEntry_congr (config : RateLimitConfig) (t : Int)
    {a b : Option RateLimitEntry} (h : entryEquiv t a b) :
    stepEntry config t a = stepEntry config t b := by
  rcases h with rfl | ⟨ha, hb⟩
  · rfl
  · rw [stepEntry_of_dead config t ha, stepEntry_of_dead config t hb]

/-- A call's result as well as its effect on its own key's window are fully
determined by the swept window of that key, via `stepEntry`. -/
lemma checkRateLimit_stepEntry (k : String) (config : RateLimitConfig)
    (t : Int) (s : RateLimitState) :
    (checkRateLimit k config t s).1 =
      (stepEntry config t ((afterCleanup t s).store k)).1 ∧
    (checkRateLimit k config t s).2.store k =
      (stepEntry config t ((afterCleanup t s).store k)).2 := by
  rcases h : (afterCleanup t s).store k with _ | e
  · rw [checkRateLimit_fresh_of_none k config t s h]
    exact ⟨rfl, by simp [stepEntry, storeSet_self]⟩
  · by_cases he : t > e.resetTime
    · rw [checkRateLimit_fresh_of_expired k config t s e h he]
      refine ⟨by simp [stepEntry, he], ?_⟩
      simp [stepEntry, he, storeSet_self]
    · by_cases hc : e.count ≥ config.maxRequests
      · rw [checkRateLimit_reject k config t s e h he hc]
        exact ⟨by simp [stepEntry, he, hc], by simp [stepEntry, he, hc, h]⟩
      · rw [checkRateLimit_increment k config t s e h he hc]
        refine ⟨by simp [stepEntry, he, hc], ?_⟩
        simp [stepEntry, he, hc, storeSet_self]

/-- A call for one identifier leaves any other key's window observationally
equivalent (equal, unless the sweep deleted an already-dead window). -/
lemma checkRateLimit_other_equiv (identifier : String) (config : RateLimitConfig)
    (now : Int) (s : RateLimitState) (k : String) (hk : k ≠ identifier) :
    entryEquiv now ((checkRateLimit identifier config now s).2.store k)
      (s.store k) := by
  rw [checkRateLimit_store_other identifier config now s k hk]
  exact afterCleanup_entryEquiv now s k

/-- Projection of an interleaved run onto one key: in any interleaving of
calls for keys `k1` and `k2` with nondecreasing times, the calls for `k2`
see exactly the results they would see running alone, starting from any
state whose `k2` window is equivalent at a time below all call times. -/
lemma runKeyed_project (config : RateLimitConfig) (k1 k2 : String)
    (hk : k1 ≠ k2) (calls : List (String × Int)) :
    ∀ (b : Int) (sa sb : RateLimitState),
      (∀ c ∈ calls, c.1 = k1 ∨ c.1 = k2) →
      List.Pairwise (fun a c => a.2 ≤ c.2) calls →
      (∀ c ∈ calls, b ≤ c.2) →
      entryEquiv b (sa.store k2) (sb.store k2) →
      ((runKeyed config calls sa).1.filter (fun p => p.1 = k2)).map Prod.snd =
        (runCalls k2 config
          ((calls.filter (fun p => p.1 = k2)).map Prod.snd) sb).1 := by
  induction calls with
  | nil =>
      intro b sa sb _ _ _ _
      simp [runKeyed, runCalls]
  | cons c cs ih =>
      obtain ⟨k, t⟩ := c
      intro b sa sb hkeys hpw hb hab
      have hbt : b ≤ t := hb (k, t) (by simp)
      have habt : entryEquiv t (sa.store k2) (sb.store k2) :=
        entryEquiv_mono hbt hab
      obtain ⟨hhead, hpw'⟩ := List.pairwise_cons.mp hpw
      have hkeys' : ∀ c ∈ cs, c.1 = k1 ∨ c.1 = k2 :=
        fun c hc => hkeys c (by simp [hc])
      rcases hkeys (k, t) (by simp) with hk1 | hk2
      · -- a call for the other key `k1`
        simp only at hk1
        subst hk1
        have hstep : entryEquiv t
            ((checkRateLimit k config t sa).2.store k2) (sb.store k2) :=
          entryEquiv_trans
            (checkRateLimit_other_equiv k config t sa k2 (Ne.symm hk)) habt
        have hne : ¬ (k = k2) := hk
        simp only [runKeyed]
        rw [List.filter_cons_of_neg (by simp [hne]),
          List.filter_cons_of_neg (by simp [hne])]
        exact ih t (checkRateLimit k config t sa).2 sb hkeys' hpw' hhead hstep
      · -- a call for `k2` itself
        simp only at hk2
        subst hk2
        have pa := checkRateLimit_stepEntry k config t sa
        have pb := checkRateLimit_stepEntry k config t sb
        have hstepeq : stepEntry config t ((afterCleanup t sa).store k) =
            stepEntry config t ((afterCleanup t sb).store k) :=
          stepEntry_congr config t
            (entryEquiv_trans (afterCleanup_entryEquiv t sa k)
              (entryEquiv_trans habt
                (entryEquiv_symm (afterCleanup_entryEquiv t sb k))))
        have hres : (checkRateLimit k config t sa).1 =
            (checkRateLimit k config t sb).1 := by
          rw [pa.1, pb.1, hstepeq]
        have hst : entryEquiv t ((checkRateLimit k config t sa).2.store k)
            ((checkRateLimit k config t sb).2.store k) :=
          Or.inl (by rw [pa.2, pb.2, hstepeq])
        simp only [runKeyed]
        rw [List.filter_cons_of_pos (by simp), List.filter_cons_of_pos (by simp)]
        simp only [List.map_cons, runCalls]
        refine congrArg₂ List.cons hres ?_
        exact ih t (checkRateLimit k config t sa).2
          (checkRateLimit k config t sb).2 hkeys' hpw' hhead hst

/-- C6: two distinct keys never affect each other. In any sequential
interleaving (nondecreasing call times) of calls for keys `k1` and `k2` in
local mode, the sequence of results seen by `k2` is identical to running
`k2`'s calls alone from the same initial state; moreover a single call for
`k1` never changes a live (non-expired) stored entry of `k2`. -/
theorem rateLimit_key_isolation (config : RateLimitConfig) (k1 k2 : String)
    (hk : k1 ≠ k2) (calls : List (String × Int))
    (hkeys : ∀ c ∈ calls, c.1 = k1 ∨ c.1 = k2)
    (hmono : List.Chain' (fun a c => a.2 ≤ c.2) calls)
    (s0 : RateLimitState) :
    ((runKeyed config calls s0).1.filter (fun p => p.1 = k2)).map Prod.snd =
      (runCalls k2 config
        ((calls.filter (fun p => p.1 = k2)).map Prod.snd) s0).1 ∧
    (∀ now s e, s.store k2 = some e → now ≤ e.resetTime →
        (checkRateLimit k1 config now s).2.store k2 = some e) := by
  constructor
  · have hpw : List.Pairwise (fun a c => a.2 ≤ c.2) calls := by
      haveI : IsTrans (String × Int) (fun a c => a.2 ≤ c.2) :=
        ⟨fun _ _ _ hab hbc => le_trans hab hbc⟩
      exact List.chain'_iff_pairwise.mp hmono
    cases calls with
    | nil => simp [runKeyed, runCalls]
    | cons c cs =>
        refine runKeyed_project config k1 k2 hk (c :: cs) c.2 s0 s0 hkeys hpw
          ?_ (Or.inl rfl)
        intro d hd
        rcases List.mem_cons.mp hd with rfl | hd'
        · exact le_refl _
        · exact (List.pairwise_cons.mp hpw).1 d hd'
  · intro now s e he hl
    rw [checkRateLimit_store_other k1 config now s k2 (Ne.symm hk)]
    exact afterCleanup_store_live now s k2 e he (by omega)

/-- Witness for C6: a concrete interleaving of two keys, and a concrete
frame instance. -/
theorem rateLimit_key_isolation_witness :
    ((runKeyed ⟨3, 1000⟩ [("a", 10), ("b", 20), ("a", 30), ("b", 40)]
        initialState).1.filter (fun p => p.1 = "b")).map Prod.snd =
      (runCalls "b" ⟨3, 1000⟩
        (([("a", 10), ("b", 20), ("a", 30), ("b", 40)].filter
          (fun p => p.1 = "b")).map Prod.snd) initialState).1 ∧
    (checkRateLimit "a" ⟨3, 1000⟩ 100 (stateWith "b" ⟨1, 200⟩ 100)).2.store "b" =
      some ⟨1, 200⟩ :=
  ⟨(rateLimit_key_isolation ⟨3, 1000⟩ "a" "b" (by decide)
      [("a", 10), ("b", 20), ("a", 30), ("b", 40)] (by decide)
      (by norm_num [List.chain'_cons, List.chain'_singleton])
      initialState).1,
   (rateLimit_key_isolation ⟨3, 1000⟩ "a" "b" (by decide) [] (by decide)
      (List.chain'_nil) initialState).2 100 (stateWith "b" ⟨1, 200⟩ 100)
      ⟨1, 200⟩ rfl (by decide)⟩

/-- C8: with the UPSTASH backend selected and the backend call failing, the
call propagates the failure (throws) when `NODE_ENV` is `production`, and
otherwise falls back to the local in-memory algorithm on the same identifier
and config. -/
theorem rateLimit_upstash_failure_policy (env : Env) (err : String)
    (identifier : String) (config : RateLimitConfig) (now : Int)
    (s : RateLimitState)
    (hmode : jsToUpper (env.rateLimitMode.getD "INMEM") = "UPSTASH") :
    (env.nodeEnv = some "production" →
        checkRateLimitFull env (.error err) identifier config now s =
          .error err) ∧
    (env.nodeEnv ≠ some "production" →
        checkRateLimitFull env (.error err) identifier config now s =
          .ok (checkRateLimit identifier config now s)) := by
  constructor
  · intro hprod
    unfold checkRateLimitFull
    simp [hmode, hprod]
  · intro hnp
    unfold checkRateLimitFull
    simp [hmode, hnp]

/-- Witness for C8 at concrete environments (production and development). -/
theorem rateLimit_upstash_failure_policy_witness :
    checkRateLimitFull ⟨some "upstash", some "production"⟩ (.error "boom")
      "k" ⟨3, 100⟩ 50 initialState = .error "boom" ∧
    checkRateLimitFull ⟨some "upstash", none⟩ (.error "boom")
      "k" ⟨3, 100⟩ 50 initialState =
      .ok (checkRateLimit "k" ⟨3, 100⟩ 50 initialState) :=
  ⟨(rateLimit_upstash_failure_policy ⟨some "upstash", some "production"⟩
      "boom" "k" ⟨3, 100⟩ 50 initialState (by decide)).1 rfl,
   (rateLimit_upstash_failure_policy ⟨some "upstash", none⟩
      "boom" "k" ⟨3, 100⟩ 50 initialState (by decide)).2 (by decide)⟩

/-- C9 counterexample: the claim's precedence is on header *presence*, but
the code uses JavaScript truthiness — a present-but-empty `cf-connecting-ip`
header is skipped, not returned. With `cf-connecting-ip: ""` and
`x-real-ip: 9.9.9.9` the claim (as `getClientIPSpec`, its literal reading)
returns `""` while the code returns `"9.9.9.9"`. -/
theorem getClientIP_spec_counterexample :
    getClientIP (headersOf [("cf-connecting-ip", ""), ("x-real-ip", "9.9.9.9")]) =
      "9.9.9.9" ∧
    getClientIPSpec (headersOf [("cf-connecting-ip", ""), ("x-real-ip", "9.9.9.9")]) =
      "" ∧
    getClientIP (headersOf [("cf-connecting-ip", ""), ("x-real-ip", "9.9.9.9")]) ≠
      getClientIPSpec (headersOf [("cf-connecting-ip", ""), ("x-real-ip", "9.9.9.9")]) := by
  decide

/-- C9 amended: `getClientIP` returns exactly one identity string by
trust-ordered precedence on *truthiness* (present and non-empty):
`cf-connecting-ip` if truthy; else `x-real-ip` if truthy; else the first
entry of the comma-split `x-forwarded-for` value that is non-empty after
trimming; else `"127.0.0.1"`. -/
theorem getClientIP_precedence (headers : String → Option String) :
    (jsTruthy (headers "cf-connecting-ip") = true →
        getClientIP headers = (headers "cf-connecting-ip").getD "") ∧
    (jsTruthy (headers "cf-connecting-ip") = false →
      jsTruthy (headers "x-real-ip") = true →
        getClientIP headers = (headers "x-real-ip").getD "") ∧
    (jsTruthy (headers "cf-connecting-ip") = false →
      jsTruthy (headers "x-real-ip") = false →
        getClientIP headers =
          (((jsSplitComma ((headers "x-forwarded-for").getD "")).map
              jsTrim).filter (fun p => p ≠ "")).headD "127.0.0.1") := by
  refine ⟨fun h1 => ?_, fun h1 h2 => ?_, fun h1 h2 => ?_⟩
  · unfold getClientIP
    simp [h1]
  · unfold getClientIP
    simp [h1, h2]
  · unfold getClientIP
    simp only [h1, h2, Bool.false_eq_true, if_false]
    rcases hf : headers "x-forwarded-for" with _ | f
    · decide
    · by_cases hfe : f = ""
      · subst hfe
        decide
      · have ht : jsTruthy (some f) = true := by
          simp [jsTruthy, hfe]
        rw [ht, if_pos rfl]
        simp only [Option.getD_some]
        cases hp : List.filter (fun p => decide (p ≠ ""))
            (List.map jsTrim (jsSplitComma f)) with
        | nil => rfl
        | cons p ps => rfl

/-- Witness for the amended C9 at concrete headers. -/
theorem getClientIP_precedence_witness :
    getClientIP (headersOf
        [("cf-connecting-ip", "1.1.1.1"), ("x-real-ip", "9.9.9.9")]) =
      "1.1.1.1" ∧
    getClientIP (headersOf [("x-real-ip", "8.8.8.8")]) = "8.8.8.8" := by
  constructor
  · have h := (getClientIP_precedence (headersOf
      [("cf-connecting-ip", "1.1.1.1"), ("x-real-ip", "9.9.9.9")])).1 (by decide)
    exact h.trans (by decide)
  · have h := (getClientIP_precedence
      (headersOf [("x-real-ip", "8.8.8.8")])).2.1 (by decide) (by decide)
    exact h.trans (by decide)

lemma filter_headD_eq_find (p : String → Bool) (l : List String) (d : String) :
    (l.filter p).headD d = (l.find? p).getD d := by
  induction l with
  | nil => rfl
  | cons a l ih =>
      by_cases h : p a
      · simp [List.filter_cons, List.find?_cons, h]
      · simp [List.filter_cons, List.find?_cons, h, ih]

/-- C10: with `cf-connecting-ip` and `x-real-ip` both absent, `getClientIP`
splits `x-forwarded-for` on commas, trims each entry, and returns the first
entry that is non-empty after trimming (leading empty or whitespace-only
entries are skipped); if the header is absent or every entry trims to empty,
it returns `"127.0.0.1"`. -/
theorem getClientIP_forwarded (headers : String → Option String)
    (hcf : headers "cf-connecting-ip" = none)
    (hreal : headers "x-real-ip" = none) :
    (∀ f, headers "x-forwarded-for" = some f →
        getClientIP headers =
          (((jsSplitComma f).map jsTrim).find? (fun p => p ≠ "")).getD
            "127.0.0.1") ∧
    (headers "x-forwarded-for" = none → getClientIP headers = "127.0.0.1") := by
  have h1 : jsTruthy (headers "cf-connecting-ip") = false := by
    rw [hcf]
    rfl
  have h2 : jsTruthy (headers "x-real-ip") = false := by
    rw [hreal]
    rfl
  constructor
  · intro f hf
    rw [← filter_headD_eq_find]
    unfold getClientIP
    simp only [h1, h2, Bool.false_eq_true, if_false, hf, Option.getD_some]
    by_cases hfe : f = ""
    · subst hfe
      decide
    · have ht : jsTruthy (some f) = true := by
        simp [jsTruthy, hfe]
      rw [ht, if_pos rfl]
      cases hp : List.filter (fun p => decide (p ≠ ""))
          (List.map jsTrim (jsSplitComma f)) with
      | nil => rfl
      | cons p ps => rfl
  · intro hf
    unfold getClientIP
    simp only [h1, h2, Bool.false_eq_true, if_false, hf]
    rfl

/-- Witness for C10: a forwarded header whose leading entries are empty and
whitespace-only is resolved to the first non-empty trimmed entry. -/
theorem getClientIP_forwarded_witness :
    getClientIP (headersOf [("x-forwarded-for", " , 7.7.7.7 ,8")]) =
      "7.7.7.7" := by
  have h := (getClientIP_forwarded
    (headersOf [("x-forwarded-for", " , 7.7.7.7 ,8")]) rfl rfl).1
    " , 7.7.7.7 ,8" rfl
  exact h.trans (by decide)
